import Mathlib

/-!
Verification of the Sentinel Stream fraud-detection consumer.

This file gives a shallow embedding of the stream-processing core
(`consumer/fraud_detector.py`, `consumer/main.py`, `consumer/models.py`,
`consumer/config.py`) and proves or refutes the specification claims about
it.  Conventions of the embedding:

* Python floats on the paths the claims touch (amounts, scores, window
  means) are exact rationals `ℚ`; every arithmetic operation involved
  (addition, division, `min`, `max`, `abs`) is exact on the values the
  code manipulates, so `ℚ` is a faithful model.
* `datetime` instants are rationals (seconds); `timedelta` subtraction and
  comparison become `ℚ` subtraction and order.  The calendar projections
  `timestamp.hour` and `timestamp.weekday()` are carried on the
  `Transaction` record as separate fields, since the claims never relate
  them to the epoch value.
* The per-card dictionary `velocity_windows` (a `defaultdict`) is a total
  function `String → Option TransactionWindow`; `none` plays the role of
  "key absent", and the `defaultdict` read in `_check_velocity` is
  `Option.getD` with the empty window.
* Wall-clock-only fields of `FraudAlert` (`latency_ms`, `detected_at`) and
  the formatted `fraud_reason` string are not modelled: no claim mentions
  them.
-/

namespace SentinelStream

/-- Sliding window for one card: parallel lists of timestamps and amounts,
mirroring the `TransactionWindow` dataclass. -/
structure TransactionWindow where
  timestamps : List ℚ
  amounts : List ℚ
deriving DecidableEq

/-- The empty window, as `defaultdict(TransactionWindow)` creates it. -/
def emptyWindow : TransactionWindow := ⟨[], []⟩

namespace TransactionWindow

/-- `add_transaction`: append the (timestamp, amount) pair to both lists. -/
def add_transaction (w : TransactionWindow) (timestamp amount : ℚ) :
    TransactionWindow :=
  { timestamps := w.timestamps ++ [timestamp]
    amounts := w.amounts ++ [amount] }

/-- `cleanup`: compute `valid_indices` from the timestamps list (the indices
whose timestamp is at least `current_time - window_seconds`) and rebuild both
lists from those indices, exactly as the Python comprehensions do. -/
def cleanup (w : TransactionWindow) (window_seconds current_time : ℚ) :
    TransactionWindow :=
  let cutoff := current_time - window_seconds
  let validIndices :=
    (List.range w.timestamps.length).filter
      (fun i => cutoff ≤ w.timestamps.getD i 0)
  { timestamps := validIndices.map (fun i => w.timestamps.getD i 0)
    amounts := validIndices.map (fun i => w.amounts.getD i 0) }

/-- `get_count`: length of the timestamps list. -/
def get_count (w : TransactionWindow) : ℕ := w.timestamps.length

/-- `get_total_amount`: sum of the amounts, 0 when empty. -/
def get_total_amount (w : TransactionWindow) : ℚ := w.amounts.sum

/-- `get_mean_amount`: `np.mean` of the amounts (sum divided by length),
0 when the list is empty. -/
def get_mean_amount (w : TransactionWindow) : ℚ :=
  if w.amounts.isEmpty then 0 else w.amounts.sum / (w.amounts.length : ℚ)

end TransactionWindow

/-- `max(timestamps)` over a nonempty Python list, `none` on the empty list
(where Python `max` would raise; the caller guards on nonemptiness). -/
def latestTs : List ℚ → Option ℚ
  | [] => none
  | t :: ts =>
    some (match latestTs ts with
      | none => t
      | some m => max t m)

/-- The configuration fields the detector reads (`config.py`), with their
defaults. -/
structure Settings where
  velocity_window_seconds : ℚ
  velocity_threshold : ℤ
  fraud_score_threshold : ℚ
deriving DecidableEq

/-- Default settings: window 60 s, velocity threshold 5, score threshold
0.7. -/
def defaultSettings : Settings :=
  { velocity_window_seconds := 60
    velocity_threshold := 5
    fraud_score_threshold := 7/10 }

/-- A validated `Transaction` (`models.py`).  `hour` and `weekday` are the
calendar projections of `timestamp` that the feature builder reads. -/
structure Transaction where
  transaction_id : String
  card_id : String
  amount : ℚ
  timestamp : ℚ
  hour : ℕ
  weekday : ℕ
  location : String
  merchant_category : String
deriving DecidableEq

/-- The engineered `TransactionFeatures` record (`models.py`). -/
structure TransactionFeatures where
  amount_normalized : ℚ
  hour_of_day : ℕ
  day_of_week : ℕ
  is_weekend : Bool
  merchant_category_encoded : ℕ
  velocity_count : ℕ
  amount_deviation : ℚ
  location_risk : ℚ
deriving DecidableEq

/-- The fixed `MERCHANT_CATEGORIES` table. -/
def merchantCategories : List (String × ℕ) :=
  [("grocery", 0), ("gas_station", 1), ("restaurant", 2), ("online", 3),
   ("retail", 4), ("travel", 5), ("entertainment", 6), ("healthcare", 7),
   ("education", 8), ("utilities", 9), ("other", 10)]

/-- Whether the character list starting here begins with the pattern. -/
def charsStartWith : List Char → List Char → Bool
  | _, [] => true
  | [], _ :: _ => false
  | c :: cs, p :: ps => c == p && charsStartWith cs ps

/-- Python's substring containment `pat in s` on character lists. -/
def charsContain : List Char → List Char → Bool
  | [], pat => pat.isEmpty
  | c :: cs, pat => charsStartWith (c :: cs) pat || charsContain cs pat

/-- Substring containment on strings. -/
def strContainsSub (s pat : String) : Bool := charsContain s.data pat.data

/-- The `HIGH_RISK_LOCATIONS` check: any of the four markers occurs in the
lower-cased location. -/
def isHighRiskLocation (location : String) : Bool :=
  ["unknown", "vpn", "tor", "proxy"].any
    (fun r => strContainsSub location.toLower r)

/-- The mutable state of a `FraudDetector`: the per-card window map and the
three counters.  The model/scaler handles are factored into `Scorer`. -/
structure DetectorState where
  velocity_windows : String → Option TransactionWindow
  transactions_processed : ℕ
  alerts_generated : ℕ
  velocity_violations : ℕ

/-- A freshly constructed detector: empty map, zero counters. -/
def initialState : DetectorState :=
  { velocity_windows := fun _ => none
    transactions_processed := 0
    alerts_generated := 0
    velocity_violations := 0 }

/-- The fraud alert fields the detector computes (`models.py` `FraudAlert`;
`latency_ms`, `detected_at` and the formatted `fraud_reason` string are
wall-clock or formatting artefacts and are not modelled). -/
structure FraudAlert where
  transaction_id : String
  card_id : String
  amount : ℚ
  timestamp : ℚ
  location : String
  merchant_category : String
  fraud_score : ℚ
  risk_level : String
  velocity_triggered : Bool
  velocity_count : ℕ
deriving DecidableEq

/-- Result of `_check_velocity`: the updated detector state and the returned
`(triggered, count)` pair. -/
structure VelocityResult where
  state : DetectorState
  triggered : Bool
  count : ℕ

/-- `_check_velocity`: fetch the card's window (`defaultdict`: empty when the
card is new), evict entries outside the sliding window relative to the
incoming timestamp, append the incoming transaction, and compare the new
count against the velocity threshold. -/
def check_velocity (d : DetectorState) (cfg : Settings) (card_id : String)
    (timestamp amount : ℚ) : VelocityResult :=
  let w := (d.velocity_windows card_id).getD emptyWindow
  let w1 := w.cleanup cfg.velocity_window_seconds timestamp
  let w2 := w1.add_transaction timestamp amount
  let count := w2.get_count
  { state :=
      { d with velocity_windows :=
          fun c => if c = card_id then some w2 else d.velocity_windows c }
    triggered := decide (cfg.velocity_threshold < (count : ℤ))
    count := count }

/-- `_engineer_features`: the on-the-fly feature construction.  The window is
read back from the state *as it is when this runs* — in the processing
pipeline that is after `_check_velocity` has already inserted the current
event. -/
def engineer_features (d : DetectorState) (txn : Transaction)
    (velocity_count : ℕ) : TransactionFeatures :=
  let dow := txn.weekday
  let amount_normalized := min (txn.amount / 10000) 1
  let merchant_encoded :=
    (merchantCategories.lookup txn.merchant_category.toLower).getD 10
  let location_risk : ℚ := if isHighRiskLocation txn.location then 8/10 else 2/10
  let amount_deviation : ℚ :=
    match d.velocity_windows txn.card_id with
    | none => 0
    | some w =>
      if 1 < w.get_count then
        let mean := w.get_mean_amount
        if 0 < mean then |txn.amount - mean| / mean else 0
      else 0
  { amount_normalized := amount_normalized
    hour_of_day := txn.hour
    day_of_week := dow
    is_weekend := decide (5 ≤ dow)
    merchant_category_encoded := merchant_encoded
    velocity_count := velocity_count
    amount_deviation := min amount_deviation 5
    location_risk := location_risk }

/-- `_rule_based_score`: the fallback scoring chain, including the
`if velocity_count > 3 … elif velocity_count > 5` branch structure exactly as
written. -/
def rule_based_score (f : TransactionFeatures) : ℚ :=
  let s0 : ℚ := 1/10
  let s1 :=
    if 3 < f.velocity_count then s0 + 3/10
    else if 5 < f.velocity_count then s0 + 5/10
    else s0
  let s2 := if 2 ≤ f.hour_of_day ∧ f.hour_of_day ≤ 5 then s1 + 15/100 else s1
  let s3 := if 2 < f.amount_deviation then s2 + 2/10 else s2
  let s4 := s3 + f.location_risk * (2/10)
  let s5 := if 1/2 < f.amount_normalized then s4 + 1/10 else s4
  min s5 1

/-- The active scoring variant: the rule-based fallback, or a loaded model.
The three supported model shapes all reduce to "some numeric output, clipped
to [0,1] by `np.clip`", so a model is an arbitrary function of the features
whose output `_predict` clips. -/
inductive Scorer where
  | fallback : Scorer
  | model (f : TransactionFeatures → ℚ) : Scorer

/-- `_predict`: rule-based score when no model is loaded, else the model
output clipped to [0,1]. -/
def predict (sc : Scorer) (feats : TransactionFeatures) : ℚ :=
  match sc with
  | .fallback => rule_based_score feats
  | .model f => min (max (f feats) 0) 1

/-- `_get_risk_level`: map a score to a risk label. -/
def get_risk_level (score : ℚ) : String :=
  if 9/10 ≤ score then "CRITICAL"
  else if 3/4 ≤ score then "HIGH"
  else if 1/2 ≤ score then "MEDIUM"
  else "LOW"

/-- `process_transaction`: the full per-transaction pipeline — velocity
update, feature engineering, scoring, counter updates, and the alert
decision. -/
def process_transaction (d : DetectorState) (cfg : Settings) (sc : Scorer)
    (txn : Transaction) : DetectorState × Option FraudAlert :=
  let vr := check_velocity d cfg txn.card_id txn.timestamp txn.amount
  let feats := engineer_features vr.state txn vr.count
  let fraud_score := predict sc feats
  let d1 := { vr.state with
    transactions_processed := vr.state.transactions_processed + 1 }
  if cfg.fraud_score_threshold ≤ fraud_score ∨ vr.triggered then
    let d2 :=
      if vr.triggered then
        { d1 with velocity_violations := d1.velocity_violations + 1 }
      else d1
    let final_score :=
      if vr.triggered then max fraud_score (85/100) else fraud_score
    let alert : FraudAlert :=
      { transaction_id := txn.transaction_id
        card_id := txn.card_id
        amount := txn.amount
        timestamp := txn.timestamp
        location := txn.location
        merchant_category := txn.merchant_category
        fraud_score := final_score
        risk_level := get_risk_level final_score
        velocity_triggered := vr.triggered
        velocity_count := vr.count }
    ({ d2 with alerts_generated := d2.alerts_generated + 1 }, some alert)
  else (d1, none)

/-- `cleanup_old_windows` (the janitor body): drop every card whose window is
nonempty and whose latest timestamp is more than 5 minutes (300 s) before
`now`. -/
def cleanup_old_windows (d : DetectorState) (now : ℚ) : DetectorState :=
  { d with velocity_windows := fun c =>
      match d.velocity_windows c with
      | none => none
      | some w =>
        match latestTs w.timestamps with
        | none => some w
        | some latest => if 300 < now - latest then none else some w }

/-- The velocity result `process_transaction` computes for a transaction. -/
def velocityAfter (d : DetectorState) (cfg : Settings) (txn : Transaction) :
    VelocityResult :=
  check_velocity d cfg txn.card_id txn.timestamp txn.amount

/-- The feature vector `process_transaction` builds for a transaction. -/
def featuresOf (d : DetectorState) (cfg : Settings) (txn : Transaction) :
    TransactionFeatures :=
  engineer_features (velocityAfter d cfg txn).state txn
    (velocityAfter d cfg txn).count

/-- The raw (pre-velocity-floor) score `process_transaction` computes. -/
def rawScoreOf (d : DetectorState) (cfg : Settings) (sc : Scorer)
    (txn : Transaction) : ℚ :=
  predict sc (featuresOf d cfg txn)

/-- The card's window after `_check_velocity` has evicted and inserted: the
post-insert window. -/
def postWindow (d : DetectorState) (cfg : Settings) (txn : Transaction) :
    TransactionWindow :=
  (((d.velocity_windows txn.card_id).getD emptyWindow).cleanup
      cfg.velocity_window_seconds txn.timestamp).add_transaction
    txn.timestamp txn.amount

/-- Python string slicing `s[:n]`: the first `n` characters. -/
def truncateStr (s : String) (n : ℕ) : String := ⟨s.data.take n⟩

/-- The spec's error taxonomy for dead-letter records.  The code stores these
as the strings `"JSONDecodeError"`, `"ValidationError"` and
`"ProcessingError"`; the constructors carry the spec's names for the same
three kinds. -/
inductive ErrorKind where
  | DecodeError : ErrorKind
  | ValidationError : ErrorKind
  | ProcessingError : ErrorKind
deriving DecidableEq

/-- A dead-letter record as `send_to_dead_letter_queue` builds it
(`DeadLetterMessage` minus the wall-clock `timestamp` and the constant
`topic`). -/
structure DeadLetterRecord where
  original_message : String
  error_kind : ErrorKind
  error_detail : String
  partition : Option ℤ
  offset : Option ℤ
deriving DecidableEq

/-- How the decoded text of a record fares against `json.loads` and the
`Transaction` schema.  Carrying the outcome (rather than re-implementing the
JSON grammar) characterises an input record by its parse fate, which is all
`process_message`'s control flow inspects. -/
inductive ParseOutcome where
  | jsonError (err : String) : ParseOutcome
  | validationError (err : String) : ParseOutcome
  | ok (txn : Transaction) : ParseOutcome
deriving DecidableEq

/-- An input record from the bus: `decoded` is `some text` when the bytes are
valid UTF-8 (with `text` the decoded string) and `none` when
`bytes.decode("utf-8")` raises; `valueRepr` is Python's `str(msg.value)`;
`parse` is the fate of the decoded text (meaningful only when `decoded` is
`some`). -/
structure KafkaMsg where
  decoded : Option String
  valueRepr : String
  parse : ParseOutcome
  partition : Option ℤ
  offset : Option ℤ

/-- What one `process_message` call produces: dead-letter records sent,
alerts published, and the detector state afterwards. -/
structure ProcessResult where
  dlq : List DeadLetterRecord
  published : List FraudAlert
  state : DetectorState

/-- `process_message`: decode, parse, validate, then hand the transaction to
the detector.  `proc` is the detector call, which may raise (`none`); the
pure model `process_transaction` never does, but the code guards against it
with the outer `except` handler, whose DLQ record stores
`str(msg.value)[:500]`.  Both DLQ branches and `send_to_dead_letter_queue`'s
own `message[:1000]` truncation are modelled. -/
def process_message (d : DetectorState)
    (proc : DetectorState → Transaction → Option (DetectorState × Option FraudAlert))
    (msg : KafkaMsg) : ProcessResult :=
  match msg.decoded with
  | none =>
    -- UnicodeDecodeError propagates to the outer handler: ProcessingError.
    { dlq := [{ original_message := truncateStr (truncateStr msg.valueRepr 500) 1000
                error_kind := .ProcessingError
                error_detail := "UnicodeDecodeError"
                partition := msg.partition
                offset := msg.offset }]
      published := []
      state := d }
  | some raw =>
    match msg.parse with
    | .jsonError e =>
      { dlq := [{ original_message := truncateStr raw 1000
                  error_kind := .DecodeError
                  error_detail := e
                  partition := msg.partition
                  offset := msg.offset }]
        published := []
        state := d }
    | .validationError e =>
      { dlq := [{ original_message := truncateStr raw 1000
                  error_kind := .ValidationError
                  error_detail := e
                  partition := msg.partition
                  offset := msg.offset }]
        published := []
        state := d }
    | .ok txn =>
      match proc d txn with
      | none =>
        { dlq := [{ original_message := truncateStr (truncateStr msg.valueRepr 500) 1000
                    error_kind := .ProcessingError
                    error_detail := "ProcessingError"
                    partition := msg.partition
                    offset := msg.offset }]
          published := []
          state := d }
      | some (d', alert) =>
        { dlq := []
          published := alert.toList
          state := d' }

/-- An input record whose bytes decode and parse and validate to a
`Transaction`: the complement of "not a valid Transaction JSON". -/
def validTransactionJson (msg : KafkaMsg) : Prop :=
  ∃ raw txn, msg.decoded = some raw ∧ msg.parse = ParseOutcome.ok txn

/-- The rule-based score as claim C1 states it: both velocity bonuses are
cumulative (+0.3 for `velocity_count > 3` and additionally +0.5 for
`velocity_count > 5`).  This follows the claim's words, for comparison with
`rule_based_score`, which follows the code. -/
def claimedRuleScore (f : TransactionFeatures) : ℚ :=
  min (1/10 + (if 3 < f.velocity_count then (3/10 : ℚ) else 0)
      + (if 5 < f.velocity_count then (5/10 : ℚ) else 0)
      + (if 2 ≤ f.hour_of_day ∧ f.hour_of_day ≤ 5 then (15/100 : ℚ) else 0)
      + (if 2 < f.amount_deviation then (2/10 : ℚ) else 0)
      + f.location_risk * (2/10)
      + (if 1/2 < f.amount_normalized then (1/10 : ℚ) else 0)) 1

/-- A feature vector with `velocity_count = 6` and every other bonus off
(normal hour, no deviation, low-risk location, small amount). -/
def velocitySixFeatures : TransactionFeatures :=
  { amount_normalized := 0
    hour_of_day := 12
    day_of_week := 0
    is_weekend := false
    merchant_category_encoded := 0
    velocity_count := 6
    amount_deviation := 0
    location_risk := 2/10 }

/-- C1, counterexample: at `velocity_count = 6` the code's `elif` gives only
the +0.3 bonus (score 0.44), while the claim's cumulative reading demands
+0.3 and +0.5 (score 0.94). -/
theorem rule_score_both_bonuses_counterexample :
    rule_based_score velocitySixFeatures ≠ claimedRuleScore velocitySixFeatures := by
  have h1 : rule_based_score velocitySixFeatures = 11/25 := by
    norm_num [rule_based_score, velocitySixFeatures, min_def]
  have h2 : claimedRuleScore velocitySixFeatures = 47/50 := by
    norm_num [claimedRuleScore, velocitySixFeatures, min_def]
  rw [h1, h2]
  norm_num

/-- C1, amended: the fallback score is the base 0.1 plus +0.3 when
`velocity_count > 3`, +0.15 when `2 ≤ hour ≤ 5`, +0.2 when
`amount_deviation > 2`, +0.2·location_risk, and +0.1 when
`amount_normalized > 0.5`, capped at 1.0 — the +0.5 branch for
`velocity_count > 5` sits behind an `elif` whose guard implies the first
branch's, so it never fires. -/
theorem rule_score_formula (f : TransactionFeatures) :
    rule_based_score f =
      min (1/10 + (if 3 < f.velocity_count then (3/10 : ℚ) else 0)
          + (if 2 ≤ f.hour_of_day ∧ f.hour_of_day ≤ 5 then (15/100 : ℚ) else 0)
          + (if 2 < f.amount_deviation then (2/10 : ℚ) else 0)
          + f.location_risk * (2/10)
          + (if 1/2 < f.amount_normalized then (1/10 : ℚ) else 0)) 1 := by
  unfold rule_based_score
  split_ifs <;>
    first
      | omega
      | exact congrArg (fun x => min x 1) (by ring)

/-- C7: on both scoring paths the returned score lies in [0, 1].  The
hypothesis `0 ≤ location_risk` is the lower field bound pydantic enforces on
every `TransactionFeatures` value (`ge=0, le=1`). -/
theorem score_range (sc : Scorer) (f : TransactionFeatures)
    (h : 0 ≤ f.location_risk) :
    0 ≤ predict sc f ∧ predict sc f ≤ 1 := by
  cases sc with
  | fallback =>
    unfold predict rule_based_score
    refine ⟨le_min ?_ (by norm_num), min_le_right _ _⟩
    have hm : (0 : ℚ) ≤ f.location_risk * (2/10) :=
      mul_nonneg h (by norm_num)
    split_ifs <;> linarith
  | model g =>
    exact ⟨le_min (le_max_right _ _) (by norm_num), min_le_right _ _⟩

/-- C7 witness: the bounds at a concrete feature vector on the fallback
path. -/
theorem score_range_witness :
    0 ≤ predict Scorer.fallback velocitySixFeatures ∧
      predict Scorer.fallback velocitySixFeatures ≤ 1 :=
  score_range Scorer.fallback velocitySixFeatures (by norm_num [velocitySixFeatures])

/-- The `triggered` flag `_check_velocity` returns is exactly "post-insert
count exceeds the configured velocity threshold". -/
theorem check_velocity_triggered_iff (d : DetectorState) (cfg : Settings)
    (card : String) (ts amt : ℚ) :
    (check_velocity d cfg card ts amt).triggered = true ↔
      cfg.velocity_threshold < ((check_velocity d cfg card ts amt).count : ℤ) := by
  simp [check_velocity]

/-- C4: an alert is returned iff the computed score reaches the configured
score threshold or the post-insert window count exceeds the configured
velocity threshold; otherwise `process_transaction` returns no alert. -/
theorem alert_emitted_iff (d : DetectorState) (cfg : Settings) (sc : Scorer)
    (txn : Transaction) :
    (process_transaction d cfg sc txn).2.isSome = true ↔
      (cfg.fraud_score_threshold ≤ rawScoreOf d cfg sc txn ∨
        cfg.velocity_threshold < ((velocityAfter d cfg txn).count : ℤ)) := by
  have htrig := check_velocity_triggered_iff d cfg txn.card_id txn.timestamp
    txn.amount
  unfold rawScoreOf featuresOf velocityAfter
  simp only [process_transaction]
  split_ifs with h ht <;>
    simp only [Option.isSome_some, Option.isSome_none, Bool.false_eq_true,
      true_iff, false_iff]
  · exact h.imp id htrig.mp
  · exact h.imp id htrig.mp
  · intro hc
    exact h (hc.imp id htrig.mpr)

/-- C5: an emitted alert's score is the raw score floored at 0.85 exactly
when the velocity check triggered, and the raw score unchanged otherwise. -/
theorem alert_score_velocity_floor (d : DetectorState) (cfg : Settings)
    (sc : Scorer) (txn : Transaction) (al : FraudAlert)
    (h : (process_transaction d cfg sc txn).2 = some al) :
    (al.velocity_triggered = true →
        al.fraud_score = max (rawScoreOf d cfg sc txn) (85/100) ∧
        (85/100 : ℚ) ≤ al.fraud_score) ∧
    (al.velocity_triggered = false →
        al.fraud_score = rawScoreOf d cfg sc txn) := by
  unfold rawScoreOf featuresOf velocityAfter
  simp only [process_transaction] at h
  split_ifs at h with hc ht
  · simp only [Option.some.injEq] at h
    subst h
    exact ⟨fun _ => ⟨rfl, le_max_right _ _⟩, fun hf => absurd hf (by simp [ht])⟩
  · simp only [Option.some.injEq] at h
    subst h
    rw [Bool.not_eq_true] at ht
    exact ⟨fun htr => absurd htr (by simp [ht]), fun _ => rfl⟩

/-- Settings with `velocity_threshold = 0`, so any transaction triggers the
velocity check: used to drive the emitting branch at a concrete input. -/
def witnessSettings : Settings :=
  { velocity_window_seconds := 60
    velocity_threshold := 0
    fraud_score_threshold := 7/10 }

/-- A concrete benign transaction. -/
def witnessTxn : Transaction :=
  { transaction_id := "11111111-1111-1111-1111-111111111111"
    card_id := "c1"
    amount := 25
    timestamp := 0
    hour := 14
    weekday := 4
    location := "Austin, TX"
    merchant_category := "grocery" }

/-- The alert `process_transaction` emits for `witnessTxn` under
`witnessSettings` (velocity-triggered, score floored to 0.85). -/
def witnessAlert : FraudAlert :=
  { transaction_id := "11111111-1111-1111-1111-111111111111"
    card_id := "c1"
    amount := 25
    timestamp := 0
    location := "Austin, TX"
    merchant_category := "grocery"
    fraud_score := 17/20
    risk_level := "HIGH"
    velocity_triggered := true
    velocity_count := 1 }

/-- C5 witness: the floor at a concrete velocity-triggered run. -/
theorem alert_score_velocity_floor_witness :
    witnessAlert.fraud_score =
        max (rawScoreOf initialState witnessSettings Scorer.fallback witnessTxn)
          (85/100) ∧
      (85/100 : ℚ) ≤ witnessAlert.fraud_score :=
  (alert_score_velocity_floor initialState witnessSettings Scorer.fallback
      witnessTxn witnessAlert (by with_unfolding_all rfl)).1 rfl

/-- C10: every non-raising `process_transaction` call increments
`transactions_processed` by exactly one; a no-alert return leaves
`alerts_generated` and `velocity_violations` unchanged; an alert return
increments `alerts_generated` by one and `velocity_violations` by one exactly
when the alert is velocity-triggered. -/
theorem process_counter_effects (d : DetectorState) (cfg : Settings)
    (sc : Scorer) (txn : Transaction) :
    (process_transaction d cfg sc txn).1.transactions_processed =
        d.transactions_processed + 1 ∧
      ((process_transaction d cfg sc txn).2 = none →
        (process_transaction d cfg sc txn).1.alerts_generated =
            d.alerts_generated ∧
          (process_transaction d cfg sc txn).1.velocity_violations =
            d.velocity_violations) ∧
      (∀ al, (process_transaction d cfg sc txn).2 = some al →
        (process_transaction d cfg sc txn).1.alerts_generated =
            d.alerts_generated + 1 ∧
          (process_transaction d cfg sc txn).1.velocity_violations =
            d.velocity_violations +
              (if al.velocity_triggered then 1 else 0)) := by
  simp only [process_transaction, check_velocity]
  split_ifs with hc ht
  · refine ⟨rfl, fun hn => by simp at hn, fun al hal => ?_⟩
    simp only [Option.some.injEq] at hal
    subst hal
    simp [ht]
  · refine ⟨rfl, fun hn => by simp at hn, fun al hal => ?_⟩
    simp only [Option.some.injEq] at hal
    subst hal
    simp [ht]
  · exact ⟨rfl, fun _ => ⟨rfl, rfl⟩, fun al hal => by simp at hal⟩

/-- The window mean the Velocity Store holds for a card before the current
event is observed, `none` when the card has no window (the spec's
`prior_mean_or_none`). -/
def priorMeanOf (d : DetectorState) (card : String) : Option ℚ :=
  (d.velocity_windows card).map TransactionWindow.get_mean_amount

/-- The amount deviation as claim C2 states it: `|amount − m| / m` capped at
5 with `m` the mean *before* the current event is inserted, and 0 when that
mean is absent or ≤ 0.  This follows the claim's words, for comparison with
the deviation the pipeline computes. -/
def claimedAmountDeviation (priorMean : Option ℚ) (amount : ℚ) : ℚ :=
  match priorMean with
  | none => 0
  | some m => if m ≤ 0 then 0 else min (|amount - m| / m) 5

/-- First transaction of card c2: amount 100 at t = 0. -/
def devTx1 : Transaction :=
  { transaction_id := "22222222-2222-2222-2222-222222222221"
    card_id := "c2"
    amount := 100
    timestamp := 0
    hour := 14
    weekday := 4
    location := "Austin, TX"
    merchant_category := "grocery" }

/-- Second transaction of card c2: amount 200 at t = 10, inside the 60 s
window. -/
def devTx2 : Transaction :=
  { transaction_id := "22222222-2222-2222-2222-222222222222"
    card_id := "c2"
    amount := 200
    timestamp := 10
    hour := 14
    weekday := 4
    location := "Austin, TX"
    merchant_category := "grocery" }

/-- The detector state after processing `devTx1` from a fresh start. -/
def devState1 : DetectorState :=
  (process_transaction initialState defaultSettings Scorer.fallback devTx1).1

/-- C2, counterexample: for the second transaction of card c2 the prior
window mean is 100, so the claim demands deviation |200−100|/100 = 1; the
pipeline engineers features *after* inserting the event (window mean 150)
and computes |200−150|/150 = 1/3. -/
theorem amount_deviation_prior_mean_counterexample :
    (featuresOf devState1 defaultSettings devTx2).amount_deviation ≠
      claimedAmountDeviation (priorMeanOf devState1 devTx2.card_id)
        devTx2.amount := by
  have h1 : (featuresOf devState1 defaultSettings devTx2).amount_deviation
      = 1/3 := by
    with_unfolding_all rfl
  have h2 : claimedAmountDeviation (priorMeanOf devState1 devTx2.card_id)
      devTx2.amount = 1 := by
    with_unfolding_all rfl
  rw [h1, h2]
  norm_num

/-- The deviation feature, for any state whose map holds a window for the
card: `|amount − m|/m` capped at 5 when the held window has more than one
entry and positive mean, else 0. -/
theorem engineer_features_deviation (d : DetectorState) (txn : Transaction)
    (n : ℕ) (w : TransactionWindow)
    (hw : d.velocity_windows txn.card_id = some w) :
    (engineer_features d txn n).amount_deviation =
      if 1 < w.get_count ∧ 0 < w.get_mean_amount then
        min (|txn.amount - w.get_mean_amount| / w.get_mean_amount) 5
      else 0 := by
  have hmin : min (0 : ℚ) 5 = 0 := min_eq_left (by norm_num)
  simp only [engineer_features, hw]
  by_cases h1 : 1 < w.get_count
  · by_cases h2 : 0 < w.get_mean_amount
    · simp [h1, h2]
    · simp [h1, h2, hmin]
  · simp [h1, hmin]

/-- After `_check_velocity` runs for a transaction, the card's map entry is
exactly the post-insert window. -/
theorem velocityAfter_lookup (d : DetectorState) (cfg : Settings)
    (txn : Transaction) :
    (velocityAfter d cfg txn).state.velocity_windows txn.card_id =
      some (postWindow d cfg txn) := by
  simp [velocityAfter, check_velocity, postWindow]

/-- C2, amended: the `amount_deviation` in the built features equals
`|amount − m| / m` capped at 5 where `m` is the card's window mean computed
*after* the current event is inserted; it is 0 when the post-insert window
holds at most one entry (in particular for a card's first transaction in the
window) or its mean is ≤ 0. -/
theorem amount_deviation_post_insert (d : DetectorState) (cfg : Settings)
    (txn : Transaction) :
    (featuresOf d cfg txn).amount_deviation =
      if 1 < (postWindow d cfg txn).get_count ∧
          0 < (postWindow d cfg txn).get_mean_amount then
        min (|txn.amount - (postWindow d cfg txn).get_mean_amount| /
          (postWindow d cfg txn).get_mean_amount) 5
      else 0 := by
  unfold featuresOf
  exact engineer_features_deviation (velocityAfter d cfg txn).state txn
    (velocityAfter d cfg txn).count (postWindow d cfg txn)
    (velocityAfter_lookup d cfg txn)

/-- Every timestamp surviving `cleanup` is at least the cutoff
`current_time − window_seconds`. -/
theorem mem_cleanup_timestamps_le (w : TransactionWindow) (W t x : ℚ)
    (hx : x ∈ (w.cleanup W t).timestamps) : t - W ≤ x := by
  unfold TransactionWindow.cleanup at hx
  simp only [List.mem_map, List.mem_filter, List.mem_range,
    decide_eq_true_eq] at hx
  obtain ⟨i, ⟨_, hle⟩, rfl⟩ := hx
  exact hle

/-- Eviction is strictly less-than: a timestamp at or above the cutoff —
including one exactly at the cutoff — survives `cleanup`. -/
theorem mem_cleanup_of_mem (w : TransactionWindow) (W t x : ℚ)
    (hx : x ∈ w.timestamps) (hge : t - W ≤ x) :
    x ∈ (w.cleanup W t).timestamps := by
  unfold TransactionWindow.cleanup
  simp only [List.mem_map, List.mem_filter, List.mem_range,
    decide_eq_true_eq]
  obtain ⟨i, hi, hEl⟩ := List.mem_iff_getElem.mp hx
  refine ⟨i, ⟨hi, ?_⟩, ?_⟩ <;>
    rw [List.getD_eq_getElem w.timestamps 0 hi, hEl] <;> assumption

/-- C6: after an observation at `ts` every timestamp retained in the card's
window is at least `ts − W` (hypothesis: the configured window length is
nonnegative, as any real deployment has), and an entry of the prior window
lying at or above the cutoff — in particular exactly at `ts − W` — is still
present afterwards (strictly less-than eviction). -/
theorem window_time_bound (d : DetectorState) (cfg : Settings)
    (card : String) (ts amt : ℚ)
    (hW : 0 ≤ cfg.velocity_window_seconds) :
    (∀ w', (check_velocity d cfg card ts amt).state.velocity_windows card =
        some w' →
      ∀ t ∈ w'.timestamps, ts - cfg.velocity_window_seconds ≤ t) ∧
    (∀ w t, d.velocity_windows card = some w → t ∈ w.timestamps →
      ts - cfg.velocity_window_seconds ≤ t →
      ∀ w', (check_velocity d cfg card ts amt).state.velocity_windows card =
          some w' →
        t ∈ w'.timestamps) := by
  constructor
  · intro w' hw' t ht
    simp only [check_velocity, if_pos] at hw'
    rw [Option.some.injEq] at hw'
    subst hw'
    rcases List.mem_append.mp ht with hmem | hmem
    · exact mem_cleanup_timestamps_le _ _ _ _ hmem
    · rw [List.mem_singleton] at hmem
      subst hmem
      linarith
  · intro w t hw hmem hge w' hw'
    simp only [check_velocity, if_pos] at hw'
    rw [Option.some.injEq] at hw'
    subst hw'
    refine List.mem_append.mpr (Or.inl ?_)
    rw [hw]
    exact mem_cleanup_of_mem _ _ _ _ hmem hge

/-- C6 witness: the bound at a concrete observation. -/
theorem window_time_bound_witness :
    (∀ w', (check_velocity initialState defaultSettings "c" 0 5).state.velocity_windows
        "c" = some w' →
      ∀ t ∈ w'.timestamps,
        (0 : ℚ) - defaultSettings.velocity_window_seconds ≤ t) ∧
    (∀ w t, initialState.velocity_windows "c" = some w → t ∈ w.timestamps →
      (0 : ℚ) - defaultSettings.velocity_window_seconds ≤ t →
      ∀ w', (check_velocity initialState defaultSettings "c" 0 5).state.velocity_windows
          "c" = some w' →
        t ∈ w'.timestamps) :=
  window_time_bound initialState defaultSettings "c" 0 5
    (by norm_num [defaultSettings])

/-- `latestTs` bounds every member of the list. -/
theorem le_latestTs : ∀ (l : List ℚ) (t m : ℚ), t ∈ l →
    latestTs l = some m → t ≤ m := by
  intro l
  induction l with
  | nil =>
    intro t m ht _
    simp at ht
  | cons a as ih =>
    intro t m ht hm
    simp only [latestTs, Option.some.injEq] at hm
    rcases List.mem_cons.mp ht with rfl | hmem
    · subst hm
      cases h : latestTs as with
      | none => simp [h]
      | some m' =>
        simp only [h]
        exact le_max_left _ _
    · cases h : latestTs as with
      | none =>
        cases as with
        | nil => simp at hmem
        | cons b bs => simp [latestTs] at h
      | some m' =>
        subst hm
        simp only [h]
        exact le_trans (ih t m' hmem h) (le_max_right _ _)

/-- A state with one card c9 whose single window entry is at t = 0. -/
def staleState : DetectorState :=
  { velocity_windows := fun c => if c = "c9" then some ⟨[0], [50]⟩ else none
    transactions_processed := 1
    alerts_generated := 0
    velocity_violations := 0 }

/-- C8: a card whose most-recent window entry is strictly older than
`now − 5 min` is removed by the janitor pass, and its next observation
starts a fresh window with count 1; a card holding any entry within the last
5 minutes is kept untouched. -/
theorem janitor_evicts_stale (d : DetectorState) (now : ℚ) (card : String)
    (w : TransactionWindow) (m : ℚ) (cfg : Settings) (ts amt : ℚ)
    (hw : d.velocity_windows card = some w)
    (hm : latestTs w.timestamps = some m) :
    (m < now - 300 →
      (cleanup_old_windows d now).velocity_windows card = none ∧
      (check_velocity (cleanup_old_windows d now) cfg card ts amt).count = 1) ∧
    ((∃ t ∈ w.timestamps, now - 300 ≤ t) →
      (cleanup_old_windows d now).velocity_windows card = some w) := by
  constructor
  · intro hstale
    have hcond : 300 < now - m := by linarith
    have hremoved :
        (cleanup_old_windows d now).velocity_windows card = none := by
      simp [cleanup_old_windows, hw, hm, hcond]
    refine ⟨hremoved, ?_⟩
    simp [check_velocity, hremoved, emptyWindow, TransactionWindow.cleanup,
      TransactionWindow.add_transaction, TransactionWindow.get_count]
  · rintro ⟨t, htmem, htrecent⟩
    have hle : t ≤ m := le_latestTs _ _ _ htmem hm
    have hcond : ¬ 300 < now - m := by linarith
    simp [cleanup_old_windows, hw, hm, hcond]

/-- C8 witness: card c9's entry at t = 0 is stale at `now = 1000`; the
janitor removes the window and the next observation counts 1. -/
theorem janitor_evicts_stale_witness :
    (cleanup_old_windows staleState 1000).velocity_windows "c9" = none ∧
    (check_velocity (cleanup_old_windows staleState 1000) defaultSettings
      "c9" 1000 10).count = 1 :=
  (janitor_evicts_stale staleState 1000 "c9" ⟨[0], [50]⟩ 0 defaultSettings
      1000 10 (by with_unfolding_all rfl) rfl).1 (by norm_num)

/-- Index-based filtering of two equal-length lists through their common
`valid_indices` equals filtering the zipped pairs on the first component:
the two comprehensions of `cleanup` keep exactly the paired rows. -/
theorem range_filter_map_zip :
    ∀ (ts am : List ℚ) (p : ℚ → Bool), ts.length = am.length →
      ((List.range ts.length).filter (fun i => p (ts.getD i 0))).map
          (fun i => (ts.getD i 0, am.getD i 0)) =
        (ts.zip am).filter (fun q => p q.1) := by
  intro ts
  induction ts with
  | nil =>
    intro am p _
    simp
  | cons t ts' ih =>
    intro am p h
    cases am with
    | nil => simp at h
    | cons a am' =>
      simp only [List.length_cons, Nat.succ.injEq] at h
      rw [List.length_cons, List.range_succ_eq_map, List.filter_cons]
      simp only [List.getD_cons_zero, List.getD_cons_succ, List.filter_map,
        Function.comp_def, List.zip_cons_cons, List.filter_cons]
      by_cases hp : p t <;>
        simp only [hp, if_pos, Bool.false_eq_true, if_false, List.map_cons,
          List.map_map, Function.comp_def, List.getD_cons_succ] <;>
        rw [← ih am' p h] <;>
        simp [Function.comp_def]

/-- C9: the two lists of a window stay aligned — `add_transaction` preserves
equal length, `cleanup` always produces equal-length lists, and on an
aligned window `cleanup` keeps exactly the (timestamp, amount) pairs whose
timestamp is at or above the cutoff, in their original relative order; so
`get_count` and `get_mean_amount` always describe the same retained pairs. -/
theorem window_lists_aligned (w : TransactionWindow) (W t ts amt : ℚ) :
    ((w.add_transaction ts amt).timestamps.length =
        (w.add_transaction ts amt).amounts.length ↔
      w.timestamps.length = w.amounts.length) ∧
    (w.cleanup W t).timestamps.length = (w.cleanup W t).amounts.length ∧
    (w.timestamps.length = w.amounts.length →
      (w.cleanup W t).timestamps.zip (w.cleanup W t).amounts =
        (w.timestamps.zip w.amounts).filter
          (fun q => decide (t - W ≤ q.1))) := by
  refine ⟨?_, ?_, ?_⟩
  · simp [TransactionWindow.add_transaction]
  · simp [TransactionWindow.cleanup]
  · intro h
    simp only [TransactionWindow.cleanup]
    rw [List.zip_map']
    exact range_filter_map_zip w.timestamps w.amounts
      (fun x => decide (t - W ≤ x)) h

/-- Truncation really bounds the length. -/
theorem truncateStr_length_le (s : String) (n : ℕ) :
    (truncateStr s n).length ≤ n := by
  show (s.data.take n).length ≤ n
  rw [List.length_take]
  exact min_le_left _ _

/-- C3: an input record whose bytes are not a valid Transaction JSON yields
exactly one dead-letter record and no alert, with the error kind determined
by where it failed: JSON parse failure → DecodeError, schema validation
failure → ValidationError, any other processing exception (here, a bytes →
text decode failure) → ProcessingError; the stored message is truncated to
at most 1000 characters and, on the parse/validation paths, is exactly the
first 1000 characters of the raw text. -/
theorem invalid_message_dlq (d : DetectorState)
    (proc : DetectorState → Transaction →
      Option (DetectorState × Option FraudAlert))
    (msg : KafkaMsg) (h : ¬ validTransactionJson msg) :
    (process_message d proc msg).published = [] ∧
    (process_message d proc msg).dlq.length = 1 ∧
    ∀ r ∈ (process_message d proc msg).dlq,
      r.original_message.length ≤ 1000 ∧
      (msg.decoded = none → r.error_kind = ErrorKind.ProcessingError) ∧
      (∀ raw e, msg.decoded = some raw →
        msg.parse = ParseOutcome.jsonError e →
        r.error_kind = ErrorKind.DecodeError ∧
          r.original_message = truncateStr raw 1000) ∧
      (∀ raw e, msg.decoded = some raw →
        msg.parse = ParseOutcome.validationError e →
        r.error_kind = ErrorKind.ValidationError ∧
          r.original_message = truncateStr raw 1000) := by
  obtain ⟨dec, vrep, parse, part, off⟩ := msg
  rcases dec with _ | raw
  · refine ⟨rfl, rfl, ?_⟩
    intro r hr
    simp only [process_message, List.mem_singleton] at hr
    subst hr
    exact ⟨truncateStr_length_le _ _, fun _ => rfl,
      fun raw e hraw _ => Option.noConfusion hraw,
      fun raw e hraw _ => Option.noConfusion hraw⟩
  · rcases parse with e | e | txn
    · refine ⟨rfl, rfl, ?_⟩
      intro r hr
      simp only [process_message, List.mem_singleton] at hr
      subst hr
      refine ⟨truncateStr_length_le _ _,
        fun hnone => Option.noConfusion hnone, ?_,
        fun raw' e' _ hval => ParseOutcome.noConfusion hval⟩
      intro raw' e' hraw' _
      rw [Option.some.injEq] at hraw'
      subst hraw'
      exact ⟨rfl, rfl⟩
    · refine ⟨rfl, rfl, ?_⟩
      intro r hr
      simp only [process_message, List.mem_singleton] at hr
      subst hr
      refine ⟨truncateStr_length_le _ _,
        fun hnone => Option.noConfusion hnone,
        fun raw' e' _ hjson => ParseOutcome.noConfusion hjson, ?_⟩
      intro raw' e' hraw' _
      rw [Option.some.injEq] at hraw'
      subst hraw'
      exact ⟨rfl, rfl⟩
    · exact absurd ⟨raw, txn, rfl, rfl⟩ h

/-- A record whose bytes decode but are not JSON. -/
def malformedMsg : KafkaMsg :=
  { decoded := some "not json"
    valueRepr := "bytes of not json"
    parse := ParseOutcome.jsonError "Expecting value"
    partition := some 0
    offset := some 42 }

/-- C3 witness: the malformed record produces one DLQ record and no
alert. -/
theorem invalid_message_dlq_witness :
    (process_message initialState (fun d t => some (process_transaction d
      defaultSettings Scorer.fallback t)) malformedMsg).published = [] ∧
    (process_message initialState (fun d t => some (process_transaction d
      defaultSettings Scorer.fallback t)) malformedMsg).dlq.length = 1 ∧
    ∀ r ∈ (process_message initialState (fun d t => some (process_transaction
        d defaultSettings Scorer.fallback t)) malformedMsg).dlq,
      r.original_message.length ≤ 1000 ∧
      (malformedMsg.decoded = none →
        r.error_kind = ErrorKind.ProcessingError) ∧
      (∀ raw e, malformedMsg.decoded = some raw →
        malformedMsg.parse = ParseOutcome.jsonError e →
        r.error_kind = ErrorKind.DecodeError ∧
          r.original_message = truncateStr raw 1000) ∧
      (∀ raw e, malformedMsg.decoded = some raw →
        malformedMsg.parse = ParseOutcome.validationError e →
        r.error_kind = ErrorKind.ValidationError ∧
          r.original_message = truncateStr raw 1000) :=
  invalid_message_dlq initialState
    (fun d t => some (process_transaction d defaultSettings Scorer.fallback t))
    malformedMsg
    (by rintro ⟨raw, txn, -, hk⟩; simp [malformedMsg] at hk)

end SentinelStream
